import Mathlib

/-!
Shallow embedding of `m4b/lazy_transducer` (Rust) for checking its
natural-language specification.

The repository contains two snapshots of the same module:
`src/src/lib.rs` (inline version) and `src/src/lazy_transducer.rs`.
Where the snapshots differ, both versions are embedded under distinct
names (`parse_with` for lib.rs, `parse_with_lt` for lazy_transducer.rs;
`transducer_fn` for lib.rs's `transducer`, `pread` for
lazy_transducer.rs's `pread`).

Machine integers (`usize`) are modelled as `Nat`; byte slices as
`List Nat`; a Rust panic (from `.unwrap()` on an `Err`) is made explicit
through the `PanicOr` type; fallible construction returns `Except`.
-/

/-- Result of a Rust expression that may panic: `PanicOr.panic` models a
Rust panic (such as `.unwrap()` applied to an `Err`), `PanicOr.ok a`
models normal evaluation to `a`. -/
inductive PanicOr (α : Type) : Type
  | panic : PanicOr α
  | ok : α → PanicOr α
deriving DecidableEq

/-- `TransducerError` from src/src/lib.rs lines 14-20: errors for
constructing lazy transducers. `ElementOverflow` carries the requested
element count, the size of one element, and the source length. -/
inductive TransducerError : Type
  | BuilderError : String → TransducerError
  | ElementOverflow : (nelements : Nat) → (sizeof_element : Nat) → (src_size : Nat) → TransducerError
deriving DecidableEq

/-- The `LazyTransducer` struct (src/src/lib.rs lines 25-34 and
src/src/lazy_transducer.rs lines 24-33): an element count, a `Copy`
source handle `contents`, and a plain function extracting the `i`-th
element from the source. -/
structure LazyTransducer (Input : Type) (Output : Type) : Type where
  count : Nat
  contents : Input
  transducer : Input → Nat → Output

namespace LazyTransducer

variable {Input Output : Type}

/-- `len` (src/src/lib.rs lines 40-42). -/
def len (lt : LazyTransducer Input Output) : Nat :=
  lt.count

/-- `new` (src/src/lib.rs lines 43-54). -/
def new (contents : Input) (count : Nat) (transducer : Input → Nat → Output) :
    LazyTransducer Input Output :=
  { count := count, contents := contents, transducer := transducer }

/-- `get` (src/src/lib.rs lines 56-63 and src/src/lazy_transducer.rs
lines 156-163): `None` when the index is at least `count`, otherwise the
transducer applied to the contents and the index. -/
def get (lt : LazyTransducer Input Output) (idx : Nat) : Option Output :=
  if idx ≥ lt.count then
    none
  else
    some (lt.transducer lt.contents idx)

/-- `Clone for LazyTransducer` (src/src/lib.rs lines 100-109): copies the
(count, contents, transducer) triple. -/
def clone (lt : LazyTransducer Input Output) : LazyTransducer Input Output :=
  { count := lt.count, contents := lt.contents, transducer := lt.transducer }

end LazyTransducer

section Scroll

/-!
Fixed-width (scroll-based) specialization, src/src/lib.rs lines 69-96 and
src/src/lazy_transducer.rs lines 199-252. The scroll capabilities of the
output type are two caller-supplied operations: `size_with : Ctx → Nat`
(the byte width of one record under the context) and
`try_from_ctx : bytes → offset → Ctx → Except E Output` (scroll's
`pread_with` at an offset, which may fail). Both are parameters of the
embedding, matching the trait bounds `SizeWith` and `TryFromCtx`.
-/

variable {Ctx Output E : Type}

/-- `transducer` of src/src/lib.rs lines 74-77: computes
`off = size_with(ctx) * idx` and evaluates `input.pread_with(off, ctx).unwrap()`;
the `.unwrap()` panics when decoding fails, which `PanicOr.panic` records. -/
def transducer_fn (size_with : Ctx → Nat)
    (try_from_ctx : List Nat → Nat → Ctx → Except E Output) :
    (List Nat × Ctx) → Nat → PanicOr Output :=
  fun input_ctx idx =>
    let off := size_with input_ctx.2 * idx
    match try_from_ctx input_ctx.1 off input_ctx.2 with
    | Except.ok o => PanicOr.ok o
    | Except.error _ => PanicOr.panic

/-- `pread` of src/src/lazy_transducer.rs lines 207-210: identical body to
`transducer_fn` (offset arithmetic, then `pread_with(..).unwrap()`). -/
def pread (size_with : Ctx → Nat)
    (try_from_ctx : List Nat → Nat → Ctx → Except E Output) :
    (List Nat × Ctx) → Nat → PanicOr Output :=
  fun input_ctx idx =>
    let offset := size_with input_ctx.2 * idx
    match try_from_ctx input_ctx.1 offset input_ctx.2 with
    | Except.ok o => PanicOr.ok o
    | Except.error _ => PanicOr.panic

/-- `parse_with` of src/src/lib.rs lines 78-95: rejects with
`ElementOverflow` when `total_size > contents.len() && total_size != 0`,
otherwise builds the view with `transducer` as extractor. -/
def parse_with (size_with : Ctx → Nat)
    (try_from_ctx : List Nat → Nat → Ctx → Except E Output)
    (contents : List Nat) (count : Nat) (ctx : Ctx) :
    Except TransducerError (LazyTransducer (List Nat × Ctx) (PanicOr Output)) :=
  let sizeof_element := size_with ctx
  let total_size := sizeof_element * count
  if total_size > contents.length ∧ total_size ≠ 0 then
    Except.error (TransducerError.ElementOverflow count sizeof_element contents.length)
  else
    Except.ok
      { contents := (contents, ctx)
        count := count
        transducer := transducer_fn size_with try_from_ctx }

/-- `parse_with` of src/src/lazy_transducer.rs lines 234-251: rejects with
`ElementOverflow` when `total_size > contents.len()` (no `total_size != 0`
conjunct), otherwise builds the view with `pread` as extractor. -/
def parse_with_lt (size_with : Ctx → Nat)
    (try_from_ctx : List Nat → Nat → Ctx → Except E Output)
    (contents : List Nat) (count : Nat) (ctx : Ctx) :
    Except TransducerError (LazyTransducer (List Nat × Ctx) (PanicOr Output)) :=
  let sizeof_element := size_with ctx
  let total_size := sizeof_element * count
  if total_size > contents.length then
    Except.error (TransducerError.ElementOverflow count sizeof_element contents.length)
  else
    Except.ok
      { contents := (contents, ctx)
        count := count
        transducer := pread size_with try_from_ctx }

/-- `empty` of src/src/lib.rs lines 71-73:
`Self::parse_with(&[], 0, Ctx::default()).unwrap()`; the `.unwrap()` on the
`Result` is modelled by `PanicOr`. -/
def empty (size_with : Ctx → Nat)
    (try_from_ctx : List Nat → Nat → Ctx → Except E Output)
    (ctx_default : Ctx) :
    PanicOr (LazyTransducer (List Nat × Ctx) (PanicOr Output)) :=
  match parse_with size_with try_from_ctx [] 0 ctx_default with
  | Except.ok lt => PanicOr.ok lt
  | Except.error _ => PanicOr.panic

end Scroll

/-- Sequential by-value iterator `IntoIter` (src/src/lib.rs lines 111-114):
a cursor plus the (cloned) transducer. -/
structure IntoIter (Input : Type) (Output : Type) : Type where
  current : Nat
  lt : LazyTransducer Input Output

/-- Sequential by-reference iterator `Iter` (src/src/lib.rs lines 116-119):
a cursor plus a borrow of the transducer (a plain value here, since the
source is never mutated). -/
structure Iter (Input : Type) (Output : Type) : Type where
  current : Nat
  lt : LazyTransducer Input Output

namespace IntoIter

variable {Input Output : Type}

/-- `Iterator::next for IntoIter` (src/src/lib.rs lines 134-145 and
src/src/lazy_transducer.rs lines 271-282): yields `lt.get(current)` and
advances the cursor while `current < count`, else yields `None` and leaves
the state unchanged. -/
def next (it : IntoIter Input Output) : Option Output × IntoIter Input Output :=
  if it.current ≥ it.lt.count then
    (none, it)
  else
    (it.lt.get it.current, { it with current := it.current + 1 })

/-- `ExactSizeIterator::len for IntoIter` (src/src/lib.rs lines 171-175 and
src/src/lazy_transducer.rs lines 308-312): always reports `lt.count`. -/
def len (it : IntoIter Input Output) : Nat :=
  it.lt.count

/-- The elements a `for` loop collects from the iterator: repeatedly call
`next` until it yields `None`. Inlining `next`, the loop stops exactly
when `current ≥ count` or when `get` yields `None`. -/
def toList (it : IntoIter Input Output) : List Output :=
  if it.current ≥ it.lt.count then
    []
  else
    match it.lt.get it.current with
    | none => []
    | some o => o :: toList { it with current := it.current + 1 }
termination_by it.lt.count - it.current
decreasing_by
  simp_all only [not_le]
  omega

/-- Driving `next` a number of times, discarding the yielded elements. -/
def nextk (it : IntoIter Input Output) : Nat → IntoIter Input Output
  | 0 => it
  | k + 1 => nextk (it.next).2 k

end IntoIter

namespace Iter

variable {Input Output : Type}

/-- `Iterator::next for Iter` (src/src/lib.rs lines 121-132): same state
machine as `IntoIter.next`. -/
def next (it : Iter Input Output) : Option Output × Iter Input Output :=
  if it.current ≥ it.lt.count then
    (none, it)
  else
    (it.lt.get it.current, { it with current := it.current + 1 })

/-- The elements a `for` loop collects from the by-reference iterator. -/
def toList (it : Iter Input Output) : List Output :=
  if it.current ≥ it.lt.count then
    []
  else
    match it.lt.get it.current with
    | none => []
    | some o => o :: toList { it with current := it.current + 1 }
termination_by it.lt.count - it.current
decreasing_by
  simp_all only [not_le]
  omega

end Iter

namespace LazyTransducer

variable {Input Output : Type}

/-- `IntoIterator for LazyTransducer` (src/src/lib.rs lines 147-157):
by-value iteration starts a cursor at index 0. -/
def into_iter (lt : LazyTransducer Input Output) : IntoIter Input Output :=
  { current := 0, lt := lt }

/-- `IntoIterator for &LazyTransducer` (src/src/lib.rs lines 159-169):
by-reference iteration constructs a fresh `Iter` cursor at index 0. -/
def into_iter_ref (lt : LazyTransducer Input Output) : Iter Input Output :=
  { current := 0, lt := lt }

/-- `IntoIterator for &LazyTransducer` (src/src/lazy_transducer.rs lines
296-306): this snapshot clones the transducer into a fresh `IntoIter`
cursor at index 0. -/
def into_iter_ref_lt (lt : LazyTransducer Input Output) : IntoIter Input Output :=
  { current := 0, lt := lt.clone }

end LazyTransducer

/-- The rayon `Producer` (src/src/lib.rs lines 202-206 and
src/src/lazy_transducer.rs lines 344-348): a borrow of the transducer and
an index sub-range `[current, top)`. -/
structure Producer (Input : Type) (Output : Type) : Type where
  lt : LazyTransducer Input Output
  current : Nat
  top : Nat

namespace Producer

variable {Input Output : Type}

/-- `UnindexedProducer::split` (src/src/lib.rs lines 224-236 and
src/src/lazy_transducer.rs lines 366-377): when the range holds more than
one index, the left half keeps `[current, current + len/2)` and the right
half receives `[current + len/2, top)`; otherwise the producer is a leaf. -/
def split (p : Producer Input Output) :
    Producer Input Output × Option (Producer Input Output) :=
  let len := p.top - p.current
  if len > 1 then
    let old_top := p.top
    let split_len := len / 2
    let left := { p with top := p.current + split_len }
    (left, some { lt := p.lt, current := left.top, top := old_top })
  else
    (p, none)

/-- The index range `[current, top)` a leaf producer covers. -/
def indices (p : Producer Input Output) : List Nat :=
  List.range' p.current (p.top - p.current)

/-- A recursive splitting process as rayon drives it: a producer either is
kept whole as a leaf, or is split once (which requires `split` to return a
right half) and each half is split recursively. `SplitsTo p ls` states
that `ls` is the left-to-right list of leaves obtained from `p`. -/
inductive SplitsTo : Producer Input Output → List (Producer Input Output) → Prop
  | leaf (p : Producer Input Output) : SplitsTo p [p]
  | node (p l r : Producer Input Output) (ls rs : List (Producer Input Output)) :
      p.split = (l, some r) → SplitsTo l ls → SplitsTo r rs → SplitsTo p (ls ++ rs)

/-- Flatten the leaf ranges of a splitting outcome into one index list. -/
def leafIndices (ls : List (Producer Input Output)) : List Nat :=
  (ls.map indices).flatten

end Producer

/-!
Concrete instances used by the witness and counterexample theorems.
-/

/-- A context-independent element size of 4 bytes (e.g. `u32`). -/
def ex_size4 : Unit → Nat := fun _ => 4

/-- A context-independent element size of 0 bytes (a zero-size type). -/
def ex_size0 : Unit → Nat := fun _ => 0

/-- A big-endian 32-bit decoder over a byte list: fails (as scroll's
`pread_with` does) when fewer than 4 bytes remain at the offset. -/
def ex_u32be (input : List Nat) (offset : Nat) : Unit → Except Unit Nat :=
  fun _ =>
    if offset + 4 ≤ input.length then
      Except.ok ((((input.getD offset 0 * 256) + input.getD (offset + 1) 0) * 256
        + input.getD (offset + 2) 0) * 256 + input.getD (offset + 3) 0)
    else
      Except.error ()

/-- A content-validating 4-byte decoder: in-bounds reads still fail unless
the leading byte of the record is zero (modelling a `TryFromCtx`
implementation with content-dependent validation). -/
def ex_reject (input : List Nat) (offset : Nat) : Unit → Except Unit Nat :=
  fun _ =>
    if offset + 4 ≤ input.length then
      if input.getD offset 255 = 0 then Except.ok 0 else Except.error ()
    else
      Except.error ()

/-- The 16-byte buffer of the spec's concrete scenario. -/
def ex_bytes16 : List Nat := [0, 0, 0, 4, 0, 0, 0, 5, 0, 0, 0, 1, 0, 0, 0, 5]

/-- A 3-element view over a trivial source, used for producer ranges. -/
def lt3 : LazyTransducer Unit Unit :=
  { count := 3, contents := (), transducer := fun _ _ => () }

/-- A 2-element view over a small list source. -/
def lt_ex : LazyTransducer (List Nat) Nat :=
  { count := 2, contents := [10, 20, 30], transducer := fun l i => l.getD i 0 }


/-!
Claim theorems.
-/

/-- C1: for every byte slice, count, and context with
`size_of(ctx) * count > bytes.len()`, `parse_with` (both snapshots) fails
with `ElementOverflow` carrying the requested count, the element size and
the source length; and the outcome depends on the bytes only through
their length, so no byte of the slice is read (in particular nothing past
its end). -/
theorem c1_parse_with_overflow {Ctx Output E : Type}
    (size_with : Ctx → Nat) (try_from_ctx : List Nat → Nat → Ctx → Except E Output)
    (contents : List Nat) (count : Nat) (ctx : Ctx)
    (h : size_with ctx * count > contents.length) :
    parse_with size_with try_from_ctx contents count ctx =
      Except.error (TransducerError.ElementOverflow count (size_with ctx) contents.length) ∧
    parse_with_lt size_with try_from_ctx contents count ctx =
      Except.error (TransducerError.ElementOverflow count (size_with ctx) contents.length) ∧
    ∀ contents' : List Nat, contents'.length = contents.length →
      parse_with size_with try_from_ctx contents' count ctx =
        parse_with size_with try_from_ctx contents count ctx := by
  have h0 : size_with ctx * count ≠ 0 := by omega
  refine ⟨?_, ?_, ?_⟩
  · simp [parse_with, h, h0]
  · simp [parse_with_lt, h]
  · intro contents' hlen
    simp [parse_with, hlen, h, h0]

/-- Witness for C1: the spec's concrete scenario, a 16-byte buffer with
count 5 and element size 4 (20 > 16), fails with
`ElementOverflow{count:5, element_size:4, source_length:16}`. -/
theorem c1_parse_with_overflow_witness :
    parse_with ex_size4 ex_u32be ex_bytes16 5 () =
      Except.error (TransducerError.ElementOverflow 5 4 16) :=
  (c1_parse_with_overflow ex_size4 ex_u32be ex_bytes16 5 () (by decide)).1

/-- C2: `get idx` equals the transducer applied to (contents, idx) when
`idx < count`, and is `none` when `idx ≥ count`; in the latter case the
result is `none` for every transducer and every source with that count,
so the transducer is not invoked and no source access occurs. -/
theorem c2_get_bounds {Input Output : Type}
    (lt : LazyTransducer Input Output) (idx : Nat) :
    lt.get idx =
      (if idx < lt.count then some (lt.transducer lt.contents idx) else none) ∧
    (lt.count ≤ idx → ∀ (f : Input → Nat → Output) (c : Input),
      (LazyTransducer.mk lt.count c f).get idx = none) := by
  constructor
  · rcases Nat.lt_or_ge idx lt.count with h | h
    · simp [LazyTransducer.get, h, Nat.not_le.mpr h]
    · simp [LazyTransducer.get, h, Nat.not_lt.mpr h]
  · intro h f c
    simp [LazyTransducer.get, h]

/-- Witness for C2: on a 2-element view, `get 5` is absent, and stays
absent for a different transducer and a different source of count 2. -/
theorem c2_get_bounds_witness :
    lt_ex.get 5 =
      (if 5 < lt_ex.count then some (lt_ex.transducer lt_ex.contents 5) else none) ∧
    (LazyTransducer.mk lt_ex.count ([] : List Nat) (fun _ _ => (99 : Nat))).get 5 = none :=
  ⟨(c2_get_bounds lt_ex 5).1,
   (c2_get_bounds lt_ex 5).2 (by decide) (fun _ _ => (99 : Nat)) ([] : List Nat)⟩

/-- C8: the two snapshots of the fixed-width construction function are
extensionally equal: on every input they both succeed or both fail with
the same `ElementOverflow`, because `total_size > contents.len()` already
implies `total_size ≠ 0`; their extractors are the same function. -/
theorem c8_parse_with_snapshots_agree {Ctx Output E : Type}
    (size_with : Ctx → Nat) (try_from_ctx : List Nat → Nat → Ctx → Except E Output)
    (contents : List Nat) (count : Nat) (ctx : Ctx) :
    parse_with size_with try_from_ctx contents count ctx =
      parse_with_lt size_with try_from_ctx contents count ctx ∧
    transducer_fn size_with try_from_ctx = pread size_with try_from_ctx := by
  have htr : transducer_fn size_with try_from_ctx = pread size_with try_from_ctx := rfl
  refine ⟨?_, htr⟩
  by_cases h : size_with ctx * count > contents.length
  · have h0 : size_with ctx * count ≠ 0 := by omega
    simp [parse_with, parse_with_lt, h, h0]
  · simp [parse_with, parse_with_lt, h, htr]

/-- C9: a zero element size makes the total size 0, so both snapshots of
`parse_with` accept every byte slice and every count, including nonzero
counts over an empty buffer. -/
theorem c9_zero_size_always_accepted {Ctx Output E : Type}
    (size_with : Ctx → Nat) (try_from_ctx : List Nat → Nat → Ctx → Except E Output)
    (contents : List Nat) (count : Nat) (ctx : Ctx)
    (h : size_with ctx = 0) :
    parse_with size_with try_from_ctx contents count ctx =
      Except.ok { count := count, contents := (contents, ctx),
                  transducer := transducer_fn size_with try_from_ctx } ∧
    parse_with_lt size_with try_from_ctx contents count ctx =
      Except.ok { count := count, contents := (contents, ctx),
                  transducer := pread size_with try_from_ctx } := by
  constructor
  · simp [parse_with, h]
  · simp [parse_with_lt, h]

/-- Witness for C9: with a zero-size element, parsing 7 elements out of an
empty buffer succeeds. -/
theorem c9_zero_size_always_accepted_witness :
    parse_with ex_size0 ex_u32be [] 7 () =
      Except.ok { count := 7, contents := ([], ()),
                  transducer := transducer_fn ex_size0 ex_u32be } :=
  (c9_zero_size_always_accepted ex_size0 ex_u32be [] 7 () rfl).1

/-- C10: the length reported by `ExactSizeIterator::len` is always the
view's total count, and driving `next` any number of times leaves it
unchanged: after consuming k elements, `len` still reports `count`. -/
theorem c10_len_never_decreases {Input Output : Type}
    (it : IntoIter Input Output) (k : Nat) :
    it.len = it.lt.count ∧ (it.nextk k).len = it.lt.count := by
  refine ⟨rfl, ?_⟩
  induction k generalizing it with
  | zero => rfl
  | succ n ih =>
    have hlt : ((it.next).2).lt = it.lt := by
      by_cases h : it.current ≥ it.lt.count <;> simp [IntoIter.next, h]
    rw [IntoIter.nextk, ih]
    rw [hlt]

/-!
Helper lemmas about the sequential iterators and the splitter.
-/

/-- Elements collected from a by-reference cursor starting at `c`: the
transducer applied to each index of `[c, count)` in ascending order. -/
theorem iter_toList_eq {Input Output : Type} (lt : LazyTransducer Input Output) :
    ∀ n c, lt.count - c = n →
      Iter.toList { current := c, lt := lt } =
        (List.range' c n).map (fun i => lt.transducer lt.contents i) := by
  intro n
  induction n with
  | zero =>
    intro c hc
    have h1 : c ≥ lt.count := by omega
    rw [Iter.toList]
    simp [h1]
  | succ n ih =>
    intro c hc
    have h1 : ¬ c ≥ lt.count := by omega
    have hget : lt.get c = some (lt.transducer lt.contents c) := by
      simp [LazyTransducer.get, h1]
    rw [Iter.toList]
    simp only [h1, if_false, hget, ite_false]
    rw [ih (c + 1) (by omega), List.range'_succ]
    simp

/-- Same statement for the by-value cursor. -/
theorem intoIter_toList_eq {Input Output : Type} (lt : LazyTransducer Input Output) :
    ∀ n c, lt.count - c = n →
      IntoIter.toList { current := c, lt := lt } =
        (List.range' c n).map (fun i => lt.transducer lt.contents i) := by
  intro n
  induction n with
  | zero =>
    intro c hc
    have h1 : c ≥ lt.count := by omega
    rw [IntoIter.toList]
    simp [h1]
  | succ n ih =>
    intro c hc
    have h1 : ¬ c ≥ lt.count := by omega
    have hget : lt.get c = some (lt.transducer lt.contents c) := by
      simp [LazyTransducer.get, h1]
    rw [IntoIter.toList]
    simp only [h1, if_false, hget, ite_false]
    rw [ih (c + 1) (by omega), List.range'_succ]
    simp

/-- Any splitting outcome flattens, left to right, to exactly the index
range of the producer it started from. -/
theorem splitsTo_leafIndices {Input Output : Type}
    (p : Producer Input Output) (ls : List (Producer Input Output))
    (h : Producer.SplitsTo p ls) :
    Producer.leafIndices ls = List.range' p.current (p.top - p.current) := by
  induction h with
  | leaf p =>
    simp [Producer.leafIndices, Producer.indices]
  | node p l r ls rs hsplit hl hr ihl ihr =>
    by_cases hlen : p.top - p.current > 1
    · have hsplit' := hsplit
      unfold Producer.split at hsplit'
      simp only [hlen, if_true, if_pos] at hsplit'
      have hleq : l = { lt := p.lt, current := p.current,
                        top := p.current + (p.top - p.current) / 2 } :=
        (congrArg Prod.fst hsplit').symm
      have hreq : r = { lt := p.lt, current := p.current + (p.top - p.current) / 2,
                        top := p.top } :=
        (Option.some.inj (congrArg Prod.snd hsplit')).symm
      rw [Producer.leafIndices] at *
      rw [List.map_append, List.flatten_append]
      rw [ihl, ihr, hleq, hreq]
      simp only
      have hmid : p.current + (p.top - p.current) / 2 - p.current
          = (p.top - p.current) / 2 := by omega
      rw [hmid]
      have := List.range'_append p.current ((p.top - p.current) / 2)
        (p.top - (p.current + (p.top - p.current) / 2)) 1
      rw [Nat.one_mul] at this
      rw [this]
      congr 1
      omega
    · exfalso
      unfold Producer.split at hsplit
      simp only [hlen, if_false, if_neg] at hsplit
      have : (none : Option (Producer Input Output)) = some r := congrArg Prod.snd hsplit
      exact Option.noConfusion this

/-- C3: work conservation — for every count (including 0 and 1) and every
sequence of recursive splits starting from the producer over `[0, count)`,
the leaf ranges flatten back to exactly the index list `[0, ..., count-1]`;
hence the flattened indices are pairwise distinct and an index occurs iff
it is below `count` — nothing is skipped or duplicated. -/
theorem c3_split_work_conservation {Input Output : Type}
    (lt : LazyTransducer Input Output) (ls : List (Producer Input Output))
    (h : Producer.SplitsTo { lt := lt, current := 0, top := lt.count } ls) :
    Producer.leafIndices ls = List.range lt.count ∧
    (Producer.leafIndices ls).Nodup ∧
    (∀ i, i ∈ Producer.leafIndices ls ↔ i < lt.count) := by
  have heq := splitsTo_leafIndices _ _ h
  simp only [Nat.sub_zero] at heq
  rw [← List.range_eq_range'] at heq
  refine ⟨heq, ?_, ?_⟩
  · rw [heq]
    exact List.nodup_range lt.count
  · intro i
    rw [heq]
    exact List.mem_range

/-- Witness for C3: over a 3-element view, splitting the full range once
and then splitting the right half yields leaves `[0,1)`, `[1,2)`, `[2,3)`,
which flatten back to `[0, 1, 2]`. -/
theorem c3_split_work_conservation_witness :
    Producer.leafIndices
        [{ lt := lt3, current := 0, top := 1 }, { lt := lt3, current := 1, top := 2 },
         { lt := lt3, current := 2, top := 3 }] = List.range 3 := by
  have s1 : Producer.split { lt := lt3, current := 0, top := 3 } =
      ({ lt := lt3, current := 0, top := 1 },
       some { lt := lt3, current := 1, top := 3 }) := rfl
  have s2 : Producer.split { lt := lt3, current := 1, top := 3 } =
      ({ lt := lt3, current := 1, top := 2 },
       some { lt := lt3, current := 2, top := 3 }) := rfl
  have hder : Producer.SplitsTo { lt := lt3, current := 0, top := 3 }
      [{ lt := lt3, current := 0, top := 1 }, { lt := lt3, current := 1, top := 2 },
       { lt := lt3, current := 2, top := 3 }] :=
    Producer.SplitsTo.node _ _ _ _ _ s1 (Producer.SplitsTo.leaf _)
      (Producer.SplitsTo.node _ _ _ _ _ s2 (Producer.SplitsTo.leaf _)
        (Producer.SplitsTo.leaf _))
  exact (c3_split_work_conservation lt3 _ hder).1

/-- Counterexample for C4: over the range `[0, 3)` the code splits into a
left half `[0, 1)` (1 element) and a right half `[1, 3)` (2 elements), so
for an odd-length range the left half receives the strictly *smaller*
share, refuting the claim's tie-break direction. -/
theorem c4_left_larger_counterexample :
    Producer.split { lt := lt3, current := 0, top := 3 } =
      ({ lt := lt3, current := 0, top := 1 },
       some { lt := lt3, current := 1, top := 3 }) ∧
    ¬ (1 - 0 ≥ 3 - 1) :=
  ⟨rfl, by decide⟩

/-- C4 as amended: a range of length ≤ 1 is a leaf (`(self, None)`);
otherwise `split` cuts `[current, top)` at the midpoint
`current + (top-current)/2` into `[current, mid)` and `[mid, top)`, and by
the floor-division tie-break the *right* half gets the larger or equal
share for odd-length ranges. -/
theorem c4_split_midpoint {Input Output : Type} (p : Producer Input Output) :
    (p.top - p.current ≤ 1 → p.split = (p, none)) ∧
    (1 < p.top - p.current →
      p.split =
        ({ p with top := p.current + (p.top - p.current) / 2 },
         some { lt := p.lt, current := p.current + (p.top - p.current) / 2,
                top := p.top }) ∧
      (p.current + (p.top - p.current) / 2) - p.current ≤
        p.top - (p.current + (p.top - p.current) / 2)) := by
  constructor
  · intro h
    unfold Producer.split
    simp only [Nat.not_lt.mpr h, if_false, if_neg, gt_iff_lt]
  · intro h
    constructor
    · unfold Producer.split
      simp only [gt_iff_lt, h, if_true, if_pos]
    · omega

/-- Witness for C4 (amended): the leaf case on `[2, 3)` and the split case
on `[0, 3)`, where the left share 1 is at most the right share 2. -/
theorem c4_split_midpoint_witness :
    Producer.split { lt := lt3, current := 2, top := 3 } =
      ({ lt := lt3, current := 2, top := 3 }, none) ∧
    (Producer.split { lt := lt3, current := 0, top := 3 } =
      ({ lt := lt3, current := 0, top := 1 },
       some { lt := lt3, current := 1, top := 3 }) ∧
     1 - 0 ≤ 3 - 1) :=
  ⟨(c4_split_midpoint { lt := lt3, current := 2, top := 3 }).1 (by decide),
   (c4_split_midpoint { lt := lt3, current := 0, top := 3 }).2 (by decide)⟩

/-- A concrete fixed-width view whose decoder performs content-dependent
validation: count 1, element size 4, over the 4-byte buffer `[1,0,0,0]`
that the decoder rejects. -/
def ltBad : LazyTransducer (List Nat × Unit) (PanicOr Nat) :=
  { count := 1, contents := ([1, 0, 0, 0], ()),
    transducer := transducer_fn ex_size4 ex_reject }

/-- C5 (code evaluated at the failing input): construction passes the size
check (4 * 1 ≤ 4), yet `get 0` evaluates the in-bounds decode that fails
its content validation, and the `.unwrap()` inside the extractor turns
that failure into a panic rather than a recoverable decode error. -/
theorem c5_in_bounds_decode_failure_panics :
    parse_with ex_size4 ex_reject [1, 0, 0, 0] 1 () = Except.ok ltBad ∧
    ltBad.get 0 = some PanicOr.panic := by
  constructor
  · rfl
  · rfl

/-- C6: by-reference iteration constructs a fresh cursor at index 0 in both
snapshots (so it is restartable and always yields the same sequence); the
yielded sequence, wrapped in `some`, is exactly `get 0, ..., get (count-1)`
in ascending index order; and both snapshots' by-reference iterators yield
the same list. -/
theorem c6_sequential_iteration {Input Output : Type}
    (lt : LazyTransducer Input Output) :
    lt.into_iter_ref = { current := 0, lt := lt } ∧
    lt.into_iter_ref_lt = { current := 0, lt := lt } ∧
    (Iter.toList lt.into_iter_ref).map some = (List.range lt.count).map lt.get ∧
    IntoIter.toList lt.into_iter_ref_lt = Iter.toList lt.into_iter_ref := by
  have hclone : lt.clone = lt := rfl
  have hiter := iter_toList_eq lt lt.count 0 (Nat.sub_zero _)
  have hinto := intoIter_toList_eq lt lt.count 0 (Nat.sub_zero _)
  refine ⟨rfl, ?_, ?_, ?_⟩
  · rw [LazyTransducer.into_iter_ref_lt, hclone]
  · rw [LazyTransducer.into_iter_ref, hiter, List.map_map, List.range_eq_range']
    apply List.map_congr_left
    intro i hi
    have hlt : i < lt.count := by
      have := List.mem_range'_1.mp hi
      omega
    simp [Function.comp, LazyTransducer.get, Nat.not_le.mpr hlt]
  · rw [LazyTransducer.into_iter_ref, LazyTransducer.into_iter_ref_lt, hclone,
      hiter, hinto]

/-- C7: with count 0, `parse_with` succeeds for every byte slice (the total
size is 0, so the overflow branch is unreachable), the resulting view's
iterator yields no elements, and `empty` — parsing an empty source with
count 0 — succeeds (never hits the panicking `.unwrap()` branch). -/
theorem c7_zero_count_accepted {Ctx Output E : Type}
    (size_with : Ctx → Nat) (try_from_ctx : List Nat → Nat → Ctx → Except E Output)
    (contents : List Nat) (ctx ctx_default : Ctx) :
    parse_with size_with try_from_ctx contents 0 ctx =
      Except.ok { count := 0, contents := (contents, ctx),
                  transducer := transducer_fn size_with try_from_ctx } ∧
    IntoIter.toList
        (LazyTransducer.into_iter
          { count := 0, contents := (contents, ctx),
            transducer := transducer_fn size_with try_from_ctx }) = [] ∧
    empty size_with try_from_ctx ctx_default =
      PanicOr.ok { count := 0, contents := (([] : List Nat), ctx_default),
                   transducer := transducer_fn size_with try_from_ctx } := by
  have hp : ∀ (cs : List Nat) (cx : Ctx),
      parse_with size_with try_from_ctx cs 0 cx =
        Except.ok { count := 0, contents := (cs, cx),
                    transducer := transducer_fn size_with try_from_ctx } := by
    intro cs cx
    simp [parse_with]
  refine ⟨hp contents ctx, ?_, ?_⟩
  · rw [LazyTransducer.into_iter, IntoIter.toList]
    simp
  · rw [empty, hp]
